import Mathlib

/-!
Verification of the Intelligent Memory Retrieval engine and the Conversation
State Machine of the Alzheimer memory-assistant repository.

The Python sources embedded here are `src/core/conversation_flow.py`
(`ConversationFlowManager`) and `src/core/intelligent_memory.py`
(`IntelligentMemoryRetrieval`).  Text is modelled as `String`, machine floats
as `ℚ`, timestamps as integers (days), and the external generation service as
explicit parameters (`Option` results): when the service answers, its free-form
output string is a parameter; when it is absent or raises, the deterministic
fallback paths of the source run.
-/

/-- Model of the Python expression `needle in hay` on strings (substring test). -/
def containsSub (needle hay : String) : Bool :=
  decide (needle.data <:+: hay.data)

/-- Model of Python `str.lower()` (ASCII case folding; the keyword tables in the
source are ASCII or Arabic, which `lower()` leaves unchanged). -/
def lowerStr (s : String) : String :=
  String.mk (s.data.map Char.toLower)

/-- Model of the idiom `needle in hay.lower()` used throughout the source. -/
def inLowered (needle hay : String) : Bool :=
  containsSub needle (lowerStr hay)

/-- Helper for `splitWords`: accumulates the current word (reversed). -/
def splitWordsAux : List Char → List Char → List String
  | [], acc => if acc.isEmpty then [] else [String.mk acc.reverse]
  | c :: rest, acc =>
    if c = ' ' ∨ c = '\n' ∨ c = '\t' ∨ c = '\r' then
      if acc.isEmpty then splitWordsAux rest []
      else String.mk acc.reverse :: splitWordsAux rest []
    else splitWordsAux rest (c :: acc)

/-- Model of Python `str.split()` with no argument: split on whitespace runs,
dropping empty tokens. -/
def splitWords (s : String) : List String :=
  splitWordsAux s.data []

/-! ## Conversation flow: states and input analysis (`conversation_flow.py`) -/

/-- The `ConversationState` enum of the source. -/
inductive ConversationState where
  | greeting
  | assessment
  | memory_exercise
  | emotional_support
  | cognitive_training
  | medication_reminder
  | family_interaction
  | crisis_intervention
  | closing
deriving DecidableEq, Repr

/-- The structured result of `_analyze_patient_input` (both the parse path and
the fallback path return a dict with exactly these keys). -/
structure InputAnalysis where
  emotional_tone : String
  cognitive_clarity : ℚ
  cognitive_load : ℚ
  crisis_detected : Bool
  topics_mentioned : List String
  engagement_level : ℚ
  understanding_confidence : ℚ
  ai_analysis : String
deriving Repr

/-- The `emotional_indicators` table of `_parse_patient_analysis`. -/
def parseEmotionalIndicators : List (String × List String) :=
  [("positive", ["إيجابي", "سعيد", "مرتاح", "positive", "happy", "comfortable"]),
   ("negative", ["سلبي", "حزين", "مكتئب", "negative", "sad", "depressed"]),
   ("anxious", ["قلق", "متوتر", "خائف", "anxious", "worried", "fearful"]),
   ("confused", ["مرتبك", "مشوش", "confused", "disoriented"]),
   ("angry", ["غاضب", "منزعج", "angry", "frustrated"]),
   ("neutral", ["محايد", "عادي", "neutral", "normal"])]

/-- First table entry one of whose indicator keywords occurs in the lowered
text wins; default is "neutral" (the loop-with-break of the source). -/
def firstMatchingEmotion : List (String × List String) → String → String
  | [], _ => "neutral"
  | (emo, inds) :: rest, text =>
    if inds.any (fun i => inLowered i text) then emo
    else firstMatchingEmotion rest text

/-- The fixed `crisis_indicators` list of `_parse_patient_analysis`. -/
def crisisIndicators : List String :=
  ["أزمة", "مساعدة", "خطر", "ألم", "crisis", "help", "emergency", "pain",
   "لا أستطيع", "أريد أن أموت", "can't", "want to die"]

/-- The `topic_indicators` table of `_parse_patient_analysis`. -/
def topicIndicators : List (String × List String) :=
  [("family", ["عائلة", "أسرة", "زوج", "زوجة", "أطفال", "family", "spouse", "children"]),
   ("health", ["صحة", "دواء", "طبيب", "مرض", "health", "medicine", "doctor", "illness"]),
   ("memory", ["ذاكرة", "تذكر", "نسيان", "memory", "remember", "forget"]),
   ("daily_activities", ["أكل", "نوم", "استحمام", "eat", "sleep", "shower", "daily"]),
   ("emotions", ["مشاعر", "حزن", "فرح", "emotions", "feelings", "sad", "happy"])]

/-- Topics whose indicator list matches the (lowered) input text. -/
def extractTopics (text : String) : List String :=
  (topicIndicators.filter (fun p => p.2.any (fun i => inLowered i text))).map Prod.fst

/-- Affirmative keywords boosting engagement in `_parse_patient_analysis`. -/
def affirmativeWords : List String := ["نعم", "أريد", "yes", "want", "like"]

/-- `_parse_patient_analysis(ai_analysis, input_text)`.  The regex capture for
cognitive clarity is modelled by `clarityHint` (the parsed float, `none` when
the pattern does not match or fails to parse); the post-processing of the hint
(divide by 10 when above 1) follows the source. -/
def parse_patient_analysis (ai_analysis input_text : String)
    (clarityHint : Option ℚ) : InputAnalysis :=
  let emotional_tone := firstMatchingEmotion parseEmotionalIndicators ai_analysis
  let cognitive_clarity : ℚ :=
    match clarityHint with
    | none => 7/10
    | some c => if c > 1 then c / 10 else c
  let crisis_detected :=
    crisisIndicators.any (fun i => inLowered i input_text || inLowered i ai_analysis)
  let topics := extractTopics input_text
  let engagement0 : ℚ := min 1 (((splitWords input_text).length : ℚ) / 20)
  let engagement :=
    if affirmativeWords.any (fun w => inLowered w input_text) then engagement0 + 1/5
    else engagement0
  { emotional_tone := emotional_tone
    cognitive_clarity := cognitive_clarity
    cognitive_load := 1 - cognitive_clarity
    crisis_detected := crisis_detected
    topics_mentioned := topics
    engagement_level := min 1 engagement
    understanding_confidence := 4/5
    ai_analysis := ai_analysis }

/-- The `emotional_keywords` table of `_fallback_input_analysis`. -/
def fallbackEmotionalKeywords : List (String × List String) :=
  [("positive", ["سعيد", "جيد", "ممتاز", "رائع", "happy", "good", "great", "wonderful"]),
   ("negative", ["حزين", "سيء", "تعب", "sad", "bad", "tired", "difficult"]),
   ("anxious", ["قلق", "خائف", "متوتر", "worried", "afraid", "nervous"]),
   ("confused", ["مرتبك", "لا أعرف", "confused", "don't know"])]

/-- The `complexity_indicators` list of `_fallback_input_analysis`. -/
def complexityIndicators : List String :=
  ["لا أستطيع", "صعب", "مشكلة", "can't", "difficult", "problem"]

/-- `_fallback_input_analysis(input_text)`: the deterministic analysis used
when the generation service is absent or raised. -/
def fallback_input_analysis (input_text : String) : InputAnalysis :=
  let emotional_tone := firstMatchingEmotion fallbackEmotionalKeywords input_text
  let word_count := (splitWords input_text).length
  let engagement_level : ℚ := min 1 ((word_count : ℚ) / 15)
  let cognitive_load : ℚ :=
    if complexityIndicators.any (fun i => inLowered i input_text) then 7/10 else 3/10
  { emotional_tone := emotional_tone
    cognitive_clarity := 1 - cognitive_load
    cognitive_load := cognitive_load
    crisis_detected := false
    topics_mentioned := []
    engagement_level := engagement_level
    understanding_confidence := 3/5
    ai_analysis := "Fallback analysis used" }

/-! ## Conversation flow: the state transition function -/

/-- The `state_progression` dict of `_determine_conversation_state` together
with its `.get(current_state, current_state)` default. -/
def state_progression : ConversationState → ConversationState
  | .greeting => .assessment
  | .assessment => .cognitive_training
  | .cognitive_training => .memory_exercise
  | .memory_exercise => .emotional_support
  | .emotional_support => .closing
  | s => s

/-- `_determine_conversation_state(input_analysis)`.  `current` is
`_get_current_state()` and `turnCount` is `len(self.current_session.turns)`
at the moment of the call. -/
def determine_conversation_state (current : ConversationState)
    (a : InputAnalysis) (turnCount : ℕ) : ConversationState :=
  if a.crisis_detected then .crisis_intervention
  else if "memory" ∈ a.topics_mentioned ∧ current ≠ .memory_exercise then .memory_exercise
  else if "emotions" ∈ a.topics_mentioned ∧
      (a.emotional_tone = "negative" ∨ a.emotional_tone = "anxious") then .emotional_support
  else if "health" ∈ a.topics_mentioned then .medication_reminder
  else if "family" ∈ a.topics_mentioned then .family_interaction
  else if a.cognitive_load > 7/10 then .assessment
  else if turnCount > 6 then state_progression current
  else current

/-- The table returned by `_define_state_transitions` (declared valid
transitions; the source never consults it when recording states). -/
def state_transitions : ConversationState → List ConversationState
  | .greeting => [.assessment, .emotional_support, .memory_exercise]
  | .assessment => [.cognitive_training, .emotional_support, .memory_exercise]
  | .memory_exercise => [.emotional_support, .cognitive_training, .family_interaction]
  | .emotional_support => [.memory_exercise, .family_interaction, .closing]
  | .cognitive_training => [.memory_exercise, .assessment, .closing]
  | .medication_reminder => [.emotional_support, .closing]
  | .family_interaction => [.emotional_support, .closing]
  | .crisis_intervention => [.emotional_support, .medication_reminder]
  | .closing => []

/-! ## Conversation flow: sessions and turn processing -/

/-- The `ConversationTurn` dataclass. -/
structure ConversationTurn where
  timestamp : ℤ
  speaker : String
  content : String
  audio_path : Option String
  image_path : Option String
  emotional_tone : String
  cognitive_load : ℚ
  response_time : ℚ
  confidence : ℚ
deriving Repr

/-- The structured fields of the dict returned by
`_generate_adaptive_response`; the text itself comes from the external service
or a randomly chosen template, so the whole record is a parameter of
`process_patient_input`. -/
structure AIResponse where
  content : String
  suggested_audio : Option String
  suggested_image : Option String
  emotional_tone : String
  cognitive_load : ℚ
  confidence : ℚ
  assessment_updates : List (String × ℚ)
deriving Repr

/-- The mutable fields of the `ConversationSession` dataclass that the
turn-processing code reads or writes (the `therapeutic_outcomes` append-only
time series is not consulted by any transition or retrieval decision). -/
structure ConversationSession where
  session_id : String
  patient_id : String
  turns : List ConversationTurn
  states_visited : List ConversationState
  assessment_scores : List (String × ℚ)
  goals_achieved : List String
deriving Repr

/-- `start_conversation_session(patient_id)`.  The session id and the randomly
chosen greeting text are parameters; `t0` is the wall-clock time. -/
def start_conversation_session (patient_id session_id greeting : String)
    (t0 : ℤ) : ConversationSession :=
  { session_id := session_id
    patient_id := patient_id
    turns := [{ timestamp := t0, speaker := "assistant", content := greeting,
                audio_path := none, image_path := none, emotional_tone := "warm",
                cognitive_load := 1/10, response_time := 0, confidence := 1 }]
    states_visited := [.greeting]
    assessment_scores := []
    goals_achieved := [] }

/-- `_get_current_state()`: last visited state, `GREETING` when none. -/
def get_current_state (s : ConversationSession) : ConversationState :=
  s.states_visited.getLast?.getD .greeting

/-- Python `dict.__setitem__`: replace in place when the key exists, append
otherwise. -/
def dictInsert (d : List (String × ℚ)) (k : String) (v : ℚ) : List (String × ℚ) :=
  if d.any (fun p => p.1 = k) then d.map (fun p => if p.1 = k then (k, v) else p)
  else d ++ [(k, v)]

/-- Python `dict.update`. -/
def dictUpdate (d upd : List (String × ℚ)) : List (String × ℚ) :=
  upd.foldl (fun acc p => dictInsert acc p.1 p.2) d

/-- The goal-tracking part of `_update_therapeutic_outcomes`. -/
def update_goals (goals : List String) (a : InputAnalysis) : List String :=
  let g1 := if a.engagement_level > 7/10 ∧ "patient_engagement" ∉ goals
    then goals ++ ["patient_engagement"] else goals
  if a.emotional_tone = "positive" ∧ "positive_emotional_state" ∉ g1
  then g1 ++ ["positive_emotional_state"] else g1

/-- `process_patient_input(input_text, audio_path, image_path)` on an active
session.  `a` is the result of `_analyze_patient_input` (parse path or
fallback), `resp` the adaptive response, `t1` the start time and `t2` the time
the assistant turn is appended. -/
def process_patient_input (s : ConversationSession) (input_text : String)
    (audio_path image_path : Option String) (a : InputAnalysis)
    (resp : AIResponse) (t1 t2 : ℤ) : ConversationSession :=
  let new_state := determine_conversation_state (get_current_state s) a s.turns.length
  let states :=
    if new_state ≠ get_current_state s then s.states_visited ++ [new_state]
    else s.states_visited
  let patient_turn : ConversationTurn :=
    { timestamp := t1, speaker := "patient", content := input_text,
      audio_path := audio_path, image_path := image_path,
      emotional_tone := a.emotional_tone, cognitive_load := a.cognitive_load,
      response_time := 0, confidence := a.understanding_confidence }
  let ai_turn : ConversationTurn :=
    { timestamp := t2, speaker := "assistant", content := resp.content,
      audio_path := resp.suggested_audio, image_path := resp.suggested_image,
      emotional_tone := resp.emotional_tone, cognitive_load := resp.cognitive_load,
      response_time := ((t2 - t1 : ℤ) : ℚ), confidence := resp.confidence }
  { s with
    turns := s.turns ++ [patient_turn, ai_turn]
    states_visited := states
    assessment_scores := dictUpdate s.assessment_scores resp.assessment_updates
    goals_achieved := update_goals s.goals_achieved a }

/-- One processed input of a session: the raw input together with the analysis
and response the external collaborators produced for it. -/
structure ProcessArgs where
  input_text : String
  audio_path : Option String
  image_path : Option String
  analysis : InputAnalysis
  resp : AIResponse
  t1 : ℤ
  t2 : ℤ

/-- A session after a sequence of `process_patient_input` calls. -/
def runConversation (s0 : ConversationSession) (steps : List ProcessArgs) :
    ConversationSession :=
  steps.foldl
    (fun s p => process_patient_input s p.input_text p.audio_path p.image_path
      p.analysis p.resp p.t1 p.t2) s0

/-! ## Intelligent memory: importance scoring (`intelligent_memory.py`) -/

/-- The `importance_keywords` list of `_extract_importance_score`. -/
def importanceKeywords : List String :=
  ["مهم", "هام", "أساسي", "ضروري", "حيوي", "أولوية",
   "important", "essential", "critical", "vital", "significant"]

/-- The `emotional_keywords` list of `_extract_importance_score`. -/
def importanceEmotionalKeywords : List String :=
  ["سعيد", "حزين", "فرح", "غضب", "خوف", "حب", "كره",
   "happy", "sad", "joy", "anger", "fear", "love", "emotional"]

/-- `_extract_importance_score(analysis)`.  The regex scan for an explicit
numeric score is modelled by `parsed` (`none` when no pattern matched or the
float conversion failed); a matched score is clamped to `[0, 1]`, otherwise
the keyword fallback starts from `0.5` and is capped at `1`. -/
def extract_importance_score (analysis : String) (parsed : Option ℚ) : ℚ :=
  match parsed with
  | some s => min 1 (max 0 s)
  | none =>
    let s1 := importanceKeywords.foldl
      (fun acc k => if inLowered k analysis then acc + 1/10 else acc) (1/2 : ℚ)
    let s2 := importanceEmotionalKeywords.foldl
      (fun acc k => if inLowered k analysis then acc + 1/20 else acc) s1
    min 1 s2

/-- The `emotion_weights` dict of `_calculate_simple_importance`
(`dict.get(emotional_context, 0.0)`). -/
def emotion_weight (e : String) : ℚ :=
  if e = "جداً إيجابي" then 3/10
  else if e = "إيجابي" then 1/5
  else if e = "محايد" then 0
  else if e = "سلبي" then 1/10
  else if e = "جداً سلبي" then 1/5
  else if e = "very_positive" then 3/10
  else if e = "positive" then 1/5
  else if e = "neutral" then 0
  else if e = "negative" then 1/10
  else if e = "very_negative" then 1/5
  else 0

/-- The `important_words` list of `_calculate_simple_importance`. -/
def importantWords : List String :=
  ["عائلة", "أسرة", "زوج", "زوجة", "أطفال", "والدين",
   "family", "spouse", "children", "parents",
   "عمل", "وظيفة", "مهنة", "work", "job", "career",
   "صحة", "مرض", "دواء", "health", "medicine", "doctor"]

/-- `_calculate_simple_importance(content, emotional_context)`: the
deterministic fallback heuristic, clamped to `[0.1, 1.0]` at the end. -/
def calculate_simple_importance (content emotional_context : String) : ℚ :=
  let s0 : ℚ := 1/2 + emotion_weight emotional_context
  let s1 := if content.length > 100 then s0 + 1/10 else s0
  let s2 := if content.length > 200 then s1 + 1/10 else s1
  let s3 := importantWords.foldl
    (fun acc w => if inLowered w content then acc + 1/20 else acc) s2
  min 1 (max (1/10) s3)

/-- `_analyze_memory_importance`.  `aiResult` is `some (analysis, parsed)`
when the generation service answered (with `parsed` the regex-extracted score)
and `none` when the service is absent or raised; on the service path the
analysis text is appended to the stored content, on the fallback path the
simple heuristic runs. -/
def analyze_memory_importance (content emotional_context : String)
    (aiResult : Option (String × Option ℚ)) : String × ℚ :=
  match aiResult with
  | some (analysis, parsed) =>
    (content ++ "\n\nتحليل الذكرى: " ++ analysis, extract_importance_score analysis parsed)
  | none => (content, calculate_simple_importance content emotional_context)

/-! ## Intelligent memory: nodes, associations, store -/

/-- The `MemoryNode` dataclass (the `associated_media` dict is split into its
two keys). -/
structure MemoryNode where
  id : String
  timestamp : ℤ
  content : String
  memory_type : String
  confidence : ℚ
  tags : List String
  image_path : Option String
  audio_path : Option String
  emotional_context : String
  importance_score : ℚ
  retrieval_count : ℕ
  last_accessed : ℤ
deriving Repr

/-- Python `set(content.lower().split())`. -/
def wordSet (content : String) : Finset String :=
  (splitWords (lowerStr content)).toFinset

/-- The common-tags term of `_calculate_association_strength`:
`len(set(tags1) & set(tags2)) * 0.2`, added only when both tag lists are
truthy (non-empty). -/
def assocTagTerm (m1 m2 : MemoryNode) : ℚ :=
  if m1.tags ≠ [] ∧ m2.tags ≠ [] then
    ((m1.tags.toFinset ∩ m2.tags.toFinset).card : ℚ) * (1/5)
  else 0

/-- The emotional-context term: `+0.3` when the contexts are equal. -/
def assocEmotionTerm (m1 m2 : MemoryNode) : ℚ :=
  if m1.emotional_context = m2.emotional_context then 3/10 else 0

/-- The temporal-proximity term over
`abs((timestamp1 - timestamp2).days)`. -/
def assocTemporalTerm (m1 m2 : MemoryNode) : ℚ :=
  let td := (m1.timestamp - m2.timestamp).natAbs
  if td < 7 then 3/10
  else if td < 30 then 1/5
  else if td < 365 then 1/10
  else 0

/-- The content word-overlap term:
`len(common_words) / max(len(words1), len(words2)) * 0.3`, added only when
both word sets are non-empty. -/
def assocContentTerm (m1 m2 : MemoryNode) : ℚ :=
  let w1 := wordSet m1.content
  let w2 := wordSet m2.content
  if w1.Nonempty ∧ w2.Nonempty then
    (((w1 ∩ w2).card : ℚ) / (max w1.card w2.card : ℕ)) * (3/10)
  else 0

/-- `_calculate_association_strength(memory1, memory2)`: the sum of the four
accumulated terms, clamped by the final `min(strength, 1.0)`. -/
def calculate_association_strength (m1 m2 : MemoryNode) : ℚ :=
  min (assocTagTerm m1 m2 + assocEmotionTerm m1 m2 +
       assocTemporalTerm m1 m2 + assocContentTerm m1 m2) 1

/-- The in-memory state of `IntelligentMemoryRetrieval` that the store path
mutates: the id-keyed node table (as an insertion-ordered list, the way a
Python dict iterates) and the association adjacency viewed as directed pairs
`(source id, appended neighbour id)`. -/
structure MemoryStore where
  memory_database : List MemoryNode
  association_graph : List (String × String)

/-- A fresh `IntelligentMemoryRetrieval` with nothing on disk. -/
def emptyMemoryStore : MemoryStore := ⟨[], []⟩

/-- Python `self.memory_database[memory_id] = node`: replace in position when
the id exists, append otherwise. -/
def dbInsert (db : List MemoryNode) (node : MemoryNode) : List MemoryNode :=
  if db.any (fun m => m.id = node.id) then
    db.map (fun m => if m.id = node.id then node else m)
  else db ++ [node]

/-- `_create_memory_associations(new_memory)`: iterate the node table, skip
the new node itself, and append both directed pairs whenever the computed
strength exceeds `0.3`. -/
def create_memory_associations (db : List MemoryNode)
    (g : List (String × String)) (newMem : MemoryNode) : List (String × String) :=
  db.foldl
    (fun acc ex =>
      if ex.id = newMem.id then acc
      else if calculate_association_strength newMem ex > 3/10 then
        acc ++ [(newMem.id, ex.id), (ex.id, newMem.id)]
      else acc) g

/-- The caller-supplied arguments of one `store_multimodal_memory` call,
together with the generated id, the wall-clock time and the external
importance-analysis outcome. -/
structure StoreInput where
  memory_id : String
  now : ℤ
  content : String
  memory_type : String
  image_path : Option String
  audio_path : Option String
  emotional_context : String
  tags : List String
  aiResult : Option (String × Option ℚ)

/-- The `MemoryNode` a `store_multimodal_memory` call constructs. -/
def mkStoredNode (inp : StoreInput) : MemoryNode :=
  let analyzed := analyze_memory_importance inp.content inp.emotional_context inp.aiResult
  { id := inp.memory_id
    timestamp := inp.now
    content := analyzed.1
    memory_type := inp.memory_type
    confidence := 1
    tags := inp.tags
    image_path := inp.image_path
    audio_path := inp.audio_path
    emotional_context := inp.emotional_context
    importance_score := analyzed.2
    retrieval_count := 0
    last_accessed := inp.now }

/-- `store_multimodal_memory`: insert the node, then create associations
against the updated table (the source inserts first and skips the new id
during the scan). -/
def store_multimodal_memory (st : MemoryStore) (inp : StoreInput) : MemoryStore :=
  let node := mkStoredNode inp
  let db := dbInsert st.memory_database node
  { memory_database := db
    association_graph := create_memory_associations db st.association_graph node }

/-- The store after a sequence of `store_multimodal_memory` calls on a fresh
instance. -/
def runStores (inps : List StoreInput) : MemoryStore :=
  inps.foldl store_multimodal_memory emptyMemoryStore

/-! ## Intelligent memory: query analysis and retrieval -/

/-- The structured query context produced by `_analyze_query_context`
(either parsed from the service output or by the simple fallback). -/
structure QueryAnalysis where
  keywords : List String
  memory_types : List String
  emotional_context : String
  time_frame : String
  media_preference : String
deriving Repr

/-- The `context_memory_mapping` dict of `_simple_query_analysis` with its
`.get(context_type, ["episodic", "semantic"])` default. -/
def context_memory_mapping (context_type : String) : List String :=
  if context_type = "personal" then ["episodic"]
  else if context_type = "family" then ["episodic"]
  else if context_type = "work" then ["procedural", "semantic"]
  else if context_type = "general" then ["episodic", "semantic", "procedural"]
  else if context_type = "health" then ["semantic", "episodic"]
  else ["episodic", "semantic"]

/-- `_simple_query_analysis(query, context_type)`: the deterministic fallback
query analyzer. -/
def simple_query_analysis (query context_type : String) : QueryAnalysis :=
  { keywords := (splitWords query).filter (fun w => w.length > 2)
    memory_types := context_memory_mapping context_type
    emotional_context := "neutral"
    time_frame := "any"
    media_preference := "any" }

/-- The per-memory keyword test of `_get_candidate_memories`: some keyword is
a substring of the lowered content or of a lowered tag. -/
def keywordMatches (keywords : List String) (m : MemoryNode) : Bool :=
  keywords.any (fun k =>
    inLowered (lowerStr k) m.content || m.tags.any (fun t => inLowered (lowerStr k) t))

/-- `_get_candidate_memories(query_analysis)`: filter the node table by memory
type and keyword match (keeping everything when no keywords were given). -/
def get_candidate_memories (qa : QueryAnalysis) (db : List MemoryNode) :
    List MemoryNode :=
  db.filter (fun m =>
    decide (m.memory_type ∈ qa.memory_types) &&
    (keywordMatches qa.keywords m || decide (qa.keywords = [])))

/-- Python truthiness of `associated_media.get(key)`. -/
def optTruthy : Option String → Bool
  | none => false
  | some s => decide (s ≠ "")

/-- The nested tag-hit count of `_calculate_memory_relevance`. -/
def countTagHits (keywords tags : List String) : ℕ :=
  (keywords.map (fun k => tags.countP (fun t => inLowered (lowerStr k) t))).sum

/-- `_calculate_memory_relevance(memory, query, query_analysis,
include_multimodal)`: the additive relevance score.  `now` is the wall-clock
time (in the same day units as timestamps) used for the recency term. -/
def calculate_memory_relevance (m : MemoryNode) (qa : QueryAnalysis)
    (include_multimodal : Bool) (now : ℤ) : ℚ :=
  let s0 : ℚ := 0
  let s1 := if qa.keywords ≠ [] then
      s0 + ((qa.keywords.countP (fun k => inLowered (lowerStr k) m.content) : ℚ) /
        (qa.keywords.length : ℚ)) * (2/5)
    else s0
  let s2 := if m.tags ≠ [] then
      s1 + min ((countTagHits qa.keywords m.tags : ℚ) * (1/10)) (1/5)
    else s1
  let s3 := s2 + m.importance_score * (3/10)
  let s4 := s3 + max 0 (1 - ((now - m.timestamp : ℤ) : ℚ) / 365) * (1/10)
  let s5 := s4 + min ((m.retrieval_count : ℚ) / 10) 1 * (1/10)
  let s6 := if include_multimodal ∧ (optTruthy m.image_path ∨ optTruthy m.audio_path)
    then s5 + 1/10 else s5
  if qa.emotional_context = m.emotional_context then s6 + 1/10 else s6

/-- The key order of `scored_memories.sort(key=lambda x: (x[1],
x[0].timestamp), reverse=True)`: score descending, then timestamp
descending. -/
def scoreRel (x y : MemoryNode × ℚ) : Prop :=
  y.2 < x.2 ∨ (x.2 = y.2 ∧ y.1.timestamp ≤ x.1.timestamp)

instance : DecidableRel scoreRel := fun x y => by
  unfold scoreRel; infer_instance

instance : IsTotal (MemoryNode × ℚ) scoreRel where
  total x y := by
    unfold scoreRel
    rcases lt_trichotomy x.2 y.2 with h | h | h
    · exact Or.inr (Or.inl h)
    · rcases le_total y.1.timestamp x.1.timestamp with ht | ht
      · exact Or.inl (Or.inr ⟨h, ht⟩)
      · exact Or.inr (Or.inr ⟨h.symm, ht⟩)
    · exact Or.inl (Or.inl h)

instance : IsTrans (MemoryNode × ℚ) scoreRel where
  trans x y z hxy hyz := by
    unfold scoreRel at *
    rcases hxy with h1 | ⟨h1, h1t⟩ <;> rcases hyz with h2 | ⟨h2, h2t⟩
    · exact Or.inl (h2.trans h1)
    · exact Or.inl (h2 ▸ h1)
    · exact Or.inl (lt_of_lt_of_le h2 (le_of_eq h1.symm))
    · exact Or.inr ⟨h1.trans h2, h2t.trans h1t⟩

/-- `retrieve_contextual_memories(query, context_type, max_results,
include_multimodal)`, given the query analysis `qa` the service (or the
fallback) produced: filter candidates, score them, sort by (score, timestamp)
descending, and return the top `max_results` nodes. -/
def retrieve_contextual_memories (db : List MemoryNode) (qa : QueryAnalysis)
    (max_results : ℕ) (include_multimodal : Bool) (now : ℤ) : List MemoryNode :=
  let candidates := get_candidate_memories qa db
  let scored := candidates.map (fun m => (m, calculate_memory_relevance m qa include_multimodal now))
  let sorted := scored.insertionSort scoreRel
  (sorted.take max_results).map Prod.fst

/-! ## Definitions the claim statements refer to -/

/-- Modelled from the spec claim on association strength: tag-overlap ratio
`|tagsA ∩ tagsB| / max(|tagsA|, |tagsB|)` weighted `0.3`, a flat `0.3` for an
emotional-context match, the temporal tiers, and the word-overlap ratio
weighted `0.3`, summed with no clamp.  Kept separate from the source-derived
`calculate_association_strength` so the two can be compared. -/
def claimed_association_strength (m1 m2 : MemoryNode) : ℚ :=
  (((m1.tags.toFinset ∩ m2.tags.toFinset).card : ℚ) /
      ((max m1.tags.toFinset.card m2.tags.toFinset.card : ℕ) : ℚ)) * (3/10) +
    (if m1.emotional_context = m2.emotional_context then 3/10 else 0) +
    (if (m1.timestamp - m2.timestamp).natAbs < 7 then 3/10
     else if (m1.timestamp - m2.timestamp).natAbs < 30 then 1/5
     else if (m1.timestamp - m2.timestamp).natAbs < 365 then 1/10
     else 0) +
    (((wordSet m1.content ∩ wordSet m2.content).card : ℚ) /
      ((max (wordSet m1.content).card (wordSet m2.content).card : ℕ) : ℚ)) * (3/10)

/-- The amended association-strength formula: the common-tag COUNT weighted
`0.2` (taken only when both tag lists are non-empty), and the whole sum
clamped to at most `1`. -/
def amended_association_strength (m1 m2 : MemoryNode) : ℚ :=
  min 1
    ((if m1.tags ≠ [] ∧ m2.tags ≠ [] then
        ((m1.tags.toFinset ∩ m2.tags.toFinset).card : ℚ) * (1/5) else 0) +
      (if m1.emotional_context = m2.emotional_context then 3/10 else 0) +
      (if (m1.timestamp - m2.timestamp).natAbs < 7 then 3/10
       else if (m1.timestamp - m2.timestamp).natAbs < 30 then 1/5
       else if (m1.timestamp - m2.timestamp).natAbs < 365 then 1/10
       else 0) +
      (if (wordSet m1.content).Nonempty ∧ (wordSet m2.content).Nonempty then
        (((wordSet m1.content ∩ wordSet m2.content).card : ℚ) /
          ((max (wordSet m1.content).card (wordSet m2.content).card : ℕ) : ℚ)) * (3/10)
       else 0))

/-- The amended context-type table of the fallback query analyzer: the five
listed context types, with every other context type mapping to
episodic+semantic. -/
def amended_context_mapping (ctx : String) : List String :=
  (([("personal", ["episodic"]), ("family", ["episodic"]),
     ("work", ["procedural", "semantic"]),
     ("general", ["episodic", "semantic", "procedural"]),
     ("health", ["semantic", "episodic"])].lookup ctx).getD ["episodic", "semantic"])

/-- The association graph is symmetric: every directed pair has its
reverse. -/
def GraphSymm (st : MemoryStore) : Prop :=
  ∀ a b, (a, b) ∈ st.association_graph → (b, a) ∈ st.association_graph

/-- Every directed pair of the graph joins two stored nodes whose computed
association strength exceeds `0.3`. -/
def EdgesStrong (st : MemoryStore) : Prop :=
  ∀ a b, (a, b) ∈ st.association_graph →
    ∃ ma ∈ st.memory_database, ∃ mb ∈ st.memory_database,
      ma.id = a ∧ mb.id = b ∧ calculate_association_strength ma mb > 3/10

/-- A template response as `_generate_template_response` produces (concrete
values standing for one randomly chosen template). -/
def demoResp : AIResponse :=
  { content := "كيف يمكنني مساعدتك اليوم؟", suggested_audio := none,
    suggested_image := none, emotional_tone := "supportive",
    cognitive_load := 1/5, confidence := 3/5, assessment_updates := [] }

/-- The fallback analysis of a neutral one-word greeting. -/
def demoFillerAnalysis : InputAnalysis := fallback_input_analysis "مرحبا"

/-- The parse-path analysis of the input "مشاعر" (the emotions topic) with the
service answering "سلبي" (negative): emotions topic plus negative tone. -/
def demoEmotionAnalysis : InputAnalysis := parse_patient_analysis "سلبي" "مشاعر" none

/-- The parse-path analysis of the crisis utterance "أريد أن أموت" with an
uninformative service answer: the crisis keyword scan fires on the raw
input. -/
def demoCrisisAnalysis : InputAnalysis := parse_patient_analysis "" "أريد أن أموت" none

/-- A five-turn patient script: emotions topic with negative tone, three
neutral fillers, then the crisis utterance. -/
def demoArgs : List ProcessArgs :=
  [⟨"مشاعر", none, none, demoEmotionAnalysis, demoResp, 0, 0⟩,
   ⟨"مرحبا", none, none, demoFillerAnalysis, demoResp, 0, 0⟩,
   ⟨"مرحبا", none, none, demoFillerAnalysis, demoResp, 0, 0⟩,
   ⟨"مرحبا", none, none, demoFillerAnalysis, demoResp, 0, 0⟩,
   ⟨"أريد أن أموت", none, none, demoCrisisAnalysis, demoResp, 0, 0⟩]

/-- The session obtained by starting a session and processing the five-turn
script. -/
def demoSession : ConversationSession :=
  runConversation (start_conversation_session "p1" "conv_demo" "مرحبا" 0) demoArgs

/-- Two concrete store calls sharing a tag, an emotional context and a
timestamp. -/
def demoStoreInputs : List StoreInput :=
  [⟨"mem_a", 0, "وردة", "episodic", none, none, "neutral", ["family"], none⟩,
   ⟨"mem_b", 0, "قمر", "episodic", none, none, "neutral", ["family"], none⟩]

/-- The first demo store call's node (used to exhibit the C5 discrepancy). -/
def demoNodeA : MemoryNode :=
  mkStoredNode ⟨"mem_a", 0, "وردة", "episodic", none, none, "neutral", ["family"], none⟩

/-- The second demo store call's node. -/
def demoNodeB : MemoryNode :=
  mkStoredNode ⟨"mem_b", 0, "قمر", "episodic", none, none, "neutral", ["family"], none⟩

/-! ## Claim C1: crisis precedence in the transition function -/

/-- Claim C1: whenever the analyzed signals carry `crisis_detected = true`,
`_determine_conversation_state` returns `CRISIS_INTERVENTION`, for every
current state, every other signal value and every turn count. -/
theorem crisis_overrides_all (current : ConversationState) (a : InputAnalysis)
    (turnCount : ℕ) (h : a.crisis_detected = true) :
    determine_conversation_state current a turnCount = .crisis_intervention := by
  simp [determine_conversation_state, h]

/-- Witness for C1: the actually analyzable crisis utterance, from state
CLOSING at turn count 0. -/
theorem crisis_overrides_all_witness :
    demoCrisisAnalysis.crisis_detected = true ∧
    determine_conversation_state .closing demoCrisisAnalysis 0 = .crisis_intervention :=
  ⟨by decide, crisis_overrides_all .closing demoCrisisAnalysis 0 (by decide)⟩

/-! ## Claim C2: crisis keyword detection -/

/-- Claim C2 counterexample: "want to die" is a crisis keyword and occurs as a
substring of the raw input "I want to die", yet the fallback analysis (the
path taken when the service is unavailable) reports `crisis_detected = false`. -/
theorem fallback_crisis_counterexample :
    "want to die" ∈ crisisIndicators ∧
    inLowered "want to die" "I want to die" = true ∧
    (fallback_input_analysis "I want to die").crisis_detected = false :=
  ⟨by decide, by decide, rfl⟩

/-- Claim C2 amended: on the AI-analysis path, `crisis_detected` is true
exactly when some fixed crisis keyword is a substring of the lowered raw
input or of the lowered AI analysis text; the fallback path always reports
`false`. -/
theorem crisis_detection_amended :
    (∀ ai input hint,
      (parse_patient_analysis ai input hint).crisis_detected = true ↔
        ∃ kw ∈ crisisIndicators,
          kw.data <:+: (lowerStr input).data ∨ kw.data <:+: (lowerStr ai).data) ∧
    (∀ input, (fallback_input_analysis input).crisis_detected = false) := by
  constructor
  · intro ai input hint
    simp [parse_patient_analysis, List.any_eq_true, inLowered, containsSub,
      Bool.or_eq_true, decide_eq_true_iff]
  · intro input
    rfl

/-! ## Claim C7: the fallback query-analysis table -/

/-- Claim C7 counterexample: the context type "therapeutic" (the one the
conversation manager actually passes to retrieval) is not one of the five
listed keys, and the fallback maps it to episodic+semantic, not to all three
memory types. -/
theorem simple_query_default_counterexample :
    (simple_query_analysis "" "therapeutic").memory_types = ["episodic", "semantic"] ∧
    "procedural" ∉ (simple_query_analysis "" "therapeutic").memory_types :=
  ⟨rfl, by decide⟩

/-- Claim C7 amended: the fallback analyzer maps personal/family to episodic,
work to procedural+semantic, health to semantic+episodic, "general" to all
three memory types, and every other context type to episodic+semantic; the
defaults neutral/any/any are as claimed. -/
theorem simple_query_analysis_amended (query context_type : String) :
    (simple_query_analysis query context_type).memory_types =
      amended_context_mapping context_type ∧
    (simple_query_analysis query context_type).emotional_context = "neutral" ∧
    (simple_query_analysis query context_type).time_frame = "any" ∧
    (simple_query_analysis query context_type).media_preference = "any" := by
  refine ⟨?_, rfl, rfl, rfl⟩
  show context_memory_mapping context_type = amended_context_mapping context_type
  unfold context_memory_mapping amended_context_mapping
  split_ifs with h1 h2 h3 h4 h5
  · subst h1; rfl
  · subst h2; rfl
  · subst h3; rfl
  · subst h4; rfl
  · subst h5; rfl
  · have e1 : (context_type == "personal") = false := beq_eq_false_iff_ne.mpr h1
    have e2 : (context_type == "family") = false := beq_eq_false_iff_ne.mpr h2
    have e3 : (context_type == "work") = false := beq_eq_false_iff_ne.mpr h3
    have e4 : (context_type == "general") = false := beq_eq_false_iff_ne.mpr h4
    have e5 : (context_type == "health") = false := beq_eq_false_iff_ne.mpr h5
    simp [List.lookup, e1, e2, e3, e4, e5]

/-! ## Claim C9: the default progression after turn 6 -/

/-- Claim C9: with no crisis, none of the four state-forcing topics, a tone
that is neither negative nor anxious, and cognitive load at most 0.7, the
transition function after more than 6 turns applies the fixed progression
table (identity outside the five listed states). -/
theorem default_progression_after_turn6 (current : ConversationState)
    (a : InputAnalysis) (turnCount : ℕ)
    (hcrisis : a.crisis_detected = false)
    (hmem : "memory" ∉ a.topics_mentioned)
    (hemo : "emotions" ∉ a.topics_mentioned)
    (hhealth : "health" ∉ a.topics_mentioned)
    (hfam : "family" ∉ a.topics_mentioned)
    (htone1 : a.emotional_tone ≠ "negative")
    (htone2 : a.emotional_tone ≠ "anxious")
    (hload : a.cognitive_load ≤ 7/10)
    (hturn : 6 < turnCount) :
    determine_conversation_state current a turnCount = state_progression current := by
  simp [determine_conversation_state, hcrisis, hmem, hemo, hhealth, hfam,
    htone1, htone2, not_lt.mpr hload, hturn]

/-- Witness for C9: the fallback analysis of a neutral greeting satisfies all
hypotheses, and from COGNITIVE_TRAINING at turn count 7 the progression yields
MEMORY_EXERCISE. -/
theorem default_progression_after_turn6_witness :
    demoFillerAnalysis.crisis_detected = false ∧
    "memory" ∉ demoFillerAnalysis.topics_mentioned ∧
    "emotions" ∉ demoFillerAnalysis.topics_mentioned ∧
    "health" ∉ demoFillerAnalysis.topics_mentioned ∧
    "family" ∉ demoFillerAnalysis.topics_mentioned ∧
    demoFillerAnalysis.emotional_tone ≠ "negative" ∧
    demoFillerAnalysis.emotional_tone ≠ "anxious" ∧
    demoFillerAnalysis.cognitive_load ≤ 7/10 ∧
    (6 : ℕ) < 7 ∧
    determine_conversation_state .cognitive_training demoFillerAnalysis 7 =
      state_progression .cognitive_training ∧
    state_progression .cognitive_training = .memory_exercise :=
  ⟨by decide, by decide, by decide, by decide, by decide, by decide, by decide,
   by norm_num +decide [demoFillerAnalysis, fallback_input_analysis,
     complexityIndicators, inLowered, containsSub, lowerStr],
   by norm_num,
   default_progression_after_turn6 .cognitive_training demoFillerAnalysis 7
     (by decide) (by decide) (by decide) (by decide) (by decide) (by decide) (by decide)
     (by norm_num +decide [demoFillerAnalysis, fallback_input_analysis,
       complexityIndicators, inLowered, containsSub, lowerStr])
     (by norm_num),
   rfl⟩

/-! ## Claim C10: each processed input appends exactly two turns -/

/-- Claim C10: a successful `process_patient_input` call appends exactly a
patient turn carrying the given input text followed by an assistant turn, and
leaves every previously appended turn unchanged. -/
theorem process_appends_two_turns (s : ConversationSession) (input_text : String)
    (audio_path image_path : Option String) (a : InputAnalysis) (resp : AIResponse)
    (t1 t2 : ℤ) :
    ∃ pt asst : ConversationTurn,
      (process_patient_input s input_text audio_path image_path a resp t1 t2).turns =
        s.turns ++ [pt, asst] ∧
      pt.speaker = "patient" ∧ pt.content = input_text ∧ asst.speaker = "assistant" :=
  ⟨_, _, rfl, rfl, rfl, rfl⟩

/-! ## Claim C8: recorded states versus the declared transition table -/

/-- The recorded-state list of a processed input: the determined state is
appended exactly when it differs from the current one. -/
lemma process_states_eq (s : ConversationSession) (input_text : String)
    (audio_path image_path : Option String) (a : InputAnalysis) (resp : AIResponse)
    (t1 t2 : ℤ) :
    (process_patient_input s input_text audio_path image_path a resp t1 t2).states_visited =
      if determine_conversation_state (get_current_state s) a s.turns.length ≠
          get_current_state s
      then s.states_visited ++
        [determine_conversation_state (get_current_state s) a s.turns.length]
      else s.states_visited := rfl

/-- Claim C8 counterexample: a five-input session (reachable with the concrete
inputs recorded in `demoArgs`) records GREETING, EMOTIONAL_SUPPORT, CLOSING
and then CRISIS_INTERVENTION: a state is appended after CLOSING, and the
consecutive pair (CLOSING, CRISIS_INTERVENTION) is not an edge of the declared
transition table. -/
theorem states_table_counterexample :
    demoSession.states_visited =
      [.greeting, .emotional_support, .closing, .crisis_intervention] ∧
    ConversationState.crisis_intervention ∉ state_transitions ConversationState.closing := by
  constructor
  · norm_num +decide [demoSession, runConversation, demoArgs, process_patient_input,
      get_current_state, start_conversation_session, determine_conversation_state,
      demoEmotionAnalysis, demoFillerAnalysis, demoCrisisAnalysis,
      parse_patient_analysis, fallback_input_analysis, extractTopics, topicIndicators,
      parseEmotionalIndicators, fallbackEmotionalKeywords, firstMatchingEmotion,
      inLowered, containsSub, lowerStr, crisisIndicators, complexityIndicators,
      affirmativeWords, splitWords, state_progression, dictUpdate, update_goals, demoResp]
  · decide

/-- Every processed sequence keeps the recorded states non-empty, and keeps
them a chain of any relation that holds between a state and a differing output
of the transition function from it. -/
lemma runConversation_chain (R : ConversationState → ConversationState → Prop)
    (hR : ∀ (x : ConversationState) (a : InputAnalysis) (tc : ℕ),
      determine_conversation_state x a tc ≠ x → R x (determine_conversation_state x a tc)) :
    ∀ (steps : List ProcessArgs) (s : ConversationSession),
      s.states_visited ≠ [] → s.states_visited.Chain' R →
      (runConversation s steps).states_visited ≠ [] ∧
      (runConversation s steps).states_visited.Chain' R := by
  intro steps
  induction steps with
  | nil => intro s hne hch; exact ⟨hne, hch⟩
  | cons p rest ih =>
    intro s hne hch
    have hstep : runConversation s (p :: rest) =
        runConversation (process_patient_input s p.input_text p.audio_path p.image_path
          p.analysis p.resp p.t1 p.t2) rest := by
      simp [runConversation]
    rw [hstep]
    apply ih
    · rw [process_states_eq]
      split_ifs with h
      · simp
      · exact hne
    · rw [process_states_eq]
      split_ifs with h
      · have hlast : s.states_visited.getLast? =
            some (s.states_visited.getLast hne) := List.getLast?_eq_getLast _ hne
        have hcur : get_current_state s = s.states_visited.getLast hne := by
          rw [get_current_state, hlast]; rfl
        refine List.chain'_append.mpr ⟨hch, List.chain'_singleton _, ?_⟩
        intro x hx y hy
        rw [hlast] at hx
        simp only [Option.mem_def, Option.some.injEq] at hx
        simp only [List.head?_cons, Option.mem_def, Option.some.injEq] at hy
        subst hx; subst hy
        rw [← hcur]
        exact hR _ p.analysis s.turns.length h
      · exact hch

/-- Claim C8 amended: in any session produced by starting a session and
processing any sequence of inputs, consecutive recorded states are always
distinct, and each appended state is an output of the transition function
from its predecessor; the declared transition table is not what constrains
the recording, and CLOSING is not terminal (see the counterexample). -/
theorem states_visited_follow_transition_function (patient_id session_id greeting : String)
    (t0 : ℤ) (steps : List ProcessArgs) :
    ((runConversation (start_conversation_session patient_id session_id greeting t0)
        steps).states_visited).Chain'
      (fun x y => y ≠ x ∧ ∃ (a : InputAnalysis) (tc : ℕ),
        determine_conversation_state x a tc = y) :=
  (runConversation_chain _ (fun x a tc h => ⟨h, a, tc, rfl⟩) steps _
    (by simp [start_conversation_session]) (by simp [start_conversation_session])).2

/-! ## Claim C4: importance scores stay in the unit interval -/

/-- A fold that conditionally adds a non-negative constant never decreases its
accumulator. -/
lemma le_foldl_cond_add (c : ℚ) (hc : 0 ≤ c) (P : String → Bool) :
    ∀ (l : List String) (s : ℚ),
      s ≤ l.foldl (fun acc k => if P k then acc + c else acc) s := by
  intro l
  induction l with
  | nil => intro s; simp
  | cons x xs ih =>
    intro s
    simp only [List.foldl_cons]
    refine le_trans ?_ (ih _)
    split_ifs
    · linarith
    · exact le_refl s

/-- Both branches of `_extract_importance_score` land in `[0, 1]`. -/
lemma extract_importance_score_bounds (analysis : String) (parsed : Option ℚ) :
    0 ≤ extract_importance_score analysis parsed ∧
      extract_importance_score analysis parsed ≤ 1 := by
  cases parsed with
  | some s =>
    exact ⟨le_min (by norm_num) (le_max_left 0 s), min_le_left _ _⟩
  | none =>
    unfold extract_importance_score
    constructor
    · refine le_min (by norm_num) ?_
      have h1 := le_foldl_cond_add (1/10) (by norm_num)
        (fun k => inLowered k analysis) importanceKeywords (1/2)
      have h2 := le_foldl_cond_add (1/20) (by norm_num)
        (fun k => inLowered k analysis) importanceEmotionalKeywords
        (importanceKeywords.foldl
          (fun acc k => if inLowered k analysis then acc + 1/10 else acc) (1/2))
      linarith
    · exact min_le_left _ _

/-- Claim C4: every node the store operation creates carries an importance
score in `[0, 1]` (on the service path via the clamp of
`_extract_importance_score`, on the fallback path via
`_calculate_simple_importance`), and the deterministic fallback heuristic is
always clamped to `[0.1, 1.0]`. -/
theorem stored_importance_in_unit_interval :
    (∀ inp : StoreInput,
      0 ≤ (mkStoredNode inp).importance_score ∧ (mkStoredNode inp).importance_score ≤ 1) ∧
    (∀ content emotional_context : String,
      1/10 ≤ calculate_simple_importance content emotional_context ∧
        calculate_simple_importance content emotional_context ≤ 1) := by
  have hsimple : ∀ content emo : String,
      1/10 ≤ calculate_simple_importance content emo ∧
        calculate_simple_importance content emo ≤ 1 := by
    intro c e
    unfold calculate_simple_importance
    exact ⟨le_min (by norm_num) (le_max_left _ _), min_le_left _ _⟩
  constructor
  · intro inp
    rcases hai : inp.aiResult with _ | ⟨analysis, parsed⟩
    · have hs := hsimple inp.content inp.emotional_context
      simp only [mkStoredNode, analyze_memory_importance, hai]
      exact ⟨le_trans (by norm_num) hs.1, hs.2⟩
    · have he := extract_importance_score_bounds analysis parsed
      simp only [mkStoredNode, analyze_memory_importance, hai]
      exact he
  · exact hsimple

/-! ## Claim C5: the association-strength formula -/

/-- Claim C5 counterexample: for the two concrete stored nodes sharing the tag
"family", a neutral emotional context and a common timestamp, the code
computes `0.2·1 + 0.3 + 0.3 + 0 = 0.8`, while the claimed formula
(`0.3`-weighted normalized tag overlap) gives `0.3 + 0.3 + 0.3 + 0 = 0.9`. -/
theorem association_strength_formula_counterexample :
    calculate_association_strength demoNodeA demoNodeB ≠
      claimed_association_strength demoNodeA demoNodeB := by
  have hcode : calculate_association_strength demoNodeA demoNodeB = 4/5 := by
    have ht : (demoNodeA.tags.toFinset ∩ demoNodeB.tags.toFinset).card = 1 := by decide
    have hw : (wordSet demoNodeA.content ∩ wordSet demoNodeB.content).card = 0 := by decide
    have htime : (demoNodeA.timestamp - demoNodeB.timestamp).natAbs = 0 := by decide
    have hemo : demoNodeA.emotional_context = demoNodeB.emotional_context := rfl
    have hne1 : demoNodeA.tags ≠ [] := by decide
    have hne2 : demoNodeB.tags ≠ [] := by decide
    have hwn1 : (wordSet demoNodeA.content).Nonempty := by decide
    have hwn2 : (wordSet demoNodeB.content).Nonempty := by decide
    norm_num [calculate_association_strength, assocTagTerm, assocEmotionTerm,
      assocTemporalTerm, assocContentTerm, ht, hw, htime, hemo, hne1, hne2, hwn1, hwn2]
  have hclaim : claimed_association_strength demoNodeA demoNodeB = 9/10 := by
    have ht : (demoNodeA.tags.toFinset ∩ demoNodeB.tags.toFinset).card = 1 := by decide
    have ht1 : demoNodeA.tags.toFinset.card = 1 := by decide
    have ht2 : demoNodeB.tags.toFinset.card = 1 := by decide
    have hw : (wordSet demoNodeA.content ∩ wordSet demoNodeB.content).card = 0 := by decide
    have hw1 : (wordSet demoNodeA.content).card = 1 := by decide
    have hw2 : (wordSet demoNodeB.content).card = 1 := by decide
    have htime : (demoNodeA.timestamp - demoNodeB.timestamp).natAbs = 0 := by decide
    have hemo : demoNodeA.emotional_context = demoNodeB.emotional_context := rfl
    norm_num [claimed_association_strength, ht, ht1, ht2, hw, hw1, hw2, htime, hemo]
  rw [hcode, hclaim]
  norm_num

/-- Claim C5 amended: the strength computed at insertion is the sum of the
common-tag COUNT weighted 0.2 (when both nodes have tags), a flat 0.3 for an
equal emotional context, the 0.3/0.2/0.1 temporal tiers, and the 0.3-weighted
word-overlap ratio (when both contents have words), the total clamped to at
most 1. -/
theorem association_strength_amended (m1 m2 : MemoryNode) :
    calculate_association_strength m1 m2 = amended_association_strength m1 m2 := by
  unfold calculate_association_strength amended_association_strength assocTagTerm
    assocEmotionTerm assocTemporalTerm assocContentTerm
  rw [min_comm]

/-! ## Claim C3: retrieval bound, ordering and candidate filter -/

/-- Claim C3: `retrieve_contextual_memories` returns at most `max_results`
nodes, in order of relevance score descending with ties broken by timestamp
descending; every returned node is a candidate, and the candidates are exactly
the stored nodes whose memory type is among the requested ones and which match
a keyword (or trivially all of them when no keywords were given). -/
theorem retrieve_ranked_and_filtered (db : List MemoryNode) (qa : QueryAnalysis)
    (max_results : ℕ) (include_multimodal : Bool) (now : ℤ) :
    (retrieve_contextual_memories db qa max_results include_multimodal now).length ≤
      max_results ∧
    (retrieve_contextual_memories db qa max_results include_multimodal now).Pairwise
      (fun m1 m2 =>
        calculate_memory_relevance m2 qa include_multimodal now <
            calculate_memory_relevance m1 qa include_multimodal now ∨
          (calculate_memory_relevance m1 qa include_multimodal now =
              calculate_memory_relevance m2 qa include_multimodal now ∧
            m2.timestamp ≤ m1.timestamp)) ∧
    (∀ m ∈ retrieve_contextual_memories db qa max_results include_multimodal now,
      m ∈ db ∧ m.memory_type ∈ qa.memory_types ∧
        (keywordMatches qa.keywords m = true ∨ qa.keywords = [])) ∧
    (∀ m, m ∈ get_candidate_memories qa db ↔
      m ∈ db ∧ m.memory_type ∈ qa.memory_types ∧
        (keywordMatches qa.keywords m = true ∨ qa.keywords = [])) := by
  have hcand : ∀ m, m ∈ get_candidate_memories qa db ↔
      m ∈ db ∧ m.memory_type ∈ qa.memory_types ∧
        (keywordMatches qa.keywords m = true ∨ qa.keywords = []) := by
    intro m
    simp [get_candidate_memories, List.mem_filter, Bool.and_eq_true, Bool.or_eq_true,
      decide_eq_true_eq]
  have hret : retrieve_contextual_memories db qa max_results include_multimodal now =
      (((((get_candidate_memories qa db).map
            (fun m => (m, calculate_memory_relevance m qa include_multimodal now))).insertionSort
          scoreRel).take max_results).map Prod.fst) := rfl
  have hscored : ∀ x : MemoryNode × ℚ,
      x ∈ (get_candidate_memories qa db).map
          (fun m => (m, calculate_memory_relevance m qa include_multimodal now)) →
      x.2 = calculate_memory_relevance x.1 qa include_multimodal now ∧
        x.1 ∈ get_candidate_memories qa db := by
    intro x hx
    rcases List.mem_map.mp hx with ⟨m, hm, he⟩
    constructor
    · rw [← he]
    · rw [← he]; exact hm
  have hsortmem : ∀ x : MemoryNode × ℚ,
      x ∈ (((get_candidate_memories qa db).map
          (fun m => (m, calculate_memory_relevance m qa include_multimodal now))).insertionSort
        scoreRel).take max_results →
      x.2 = calculate_memory_relevance x.1 qa include_multimodal now ∧
        x.1 ∈ get_candidate_memories qa db := by
    intro x hx
    exact hscored x ((List.perm_insertionSort scoreRel _).mem_iff.mp
      (List.mem_of_mem_take hx))
  refine ⟨?_, ?_, ?_, hcand⟩
  · rw [hret, List.length_map]
    exact List.length_take_le _ _
  · rw [hret, List.pairwise_map]
    have hsorted := List.sorted_insertionSort scoreRel
      ((get_candidate_memories qa db).map
        (fun m => (m, calculate_memory_relevance m qa include_multimodal now)))
    have htake := hsorted.sublist (List.take_sublist max_results _)
    refine htake.imp_of_mem ?_
    intro a b ha hb hab
    have ha2 := hsortmem a ha
    have hb2 := hsortmem b hb
    unfold scoreRel at hab
    rcases hab with h | ⟨h, ht⟩
    · left; rw [← ha2.1, ← hb2.1]; exact h
    · right
      exact ⟨by rw [← ha2.1, ← hb2.1]; exact h, ht⟩
  · rw [hret]
    intro m hm
    rcases List.mem_map.mp hm with ⟨x, hx, hxm⟩
    have hx2 := hsortmem x hx
    exact (hcand m).mp (hxm ▸ hx2.2)

/-! ## Claim C6: symmetry and strength of the association graph -/

/-- The common-tag term is symmetric in its two nodes. -/
lemma assocTagTerm_comm (m1 m2 : MemoryNode) : assocTagTerm m1 m2 = assocTagTerm m2 m1 := by
  simp only [assocTagTerm]
  by_cases h1 : m1.tags = []
  · rw [if_neg (fun hc => hc.1 h1), if_neg (fun hc => hc.2 h1)]
  · by_cases h2 : m2.tags = []
    · rw [if_neg (fun hc => hc.2 h2), if_neg (fun hc => hc.1 h2)]
    · rw [if_pos ⟨h1, h2⟩, if_pos ⟨h2, h1⟩, Finset.inter_comm]

/-- The emotional-context term is symmetric. -/
lemma assocEmotionTerm_comm (m1 m2 : MemoryNode) :
    assocEmotionTerm m1 m2 = assocEmotionTerm m2 m1 := by
  simp only [assocEmotionTerm]
  by_cases h : m1.emotional_context = m2.emotional_context
  · rw [if_pos h, if_pos h.symm]
  · rw [if_neg h, if_neg (fun hc => h hc.symm)]

/-- The temporal-proximity term is symmetric. -/
lemma assocTemporalTerm_comm (m1 m2 : MemoryNode) :
    assocTemporalTerm m1 m2 = assocTemporalTerm m2 m1 := by
  have e : (m1.timestamp - m2.timestamp).natAbs = (m2.timestamp - m1.timestamp).natAbs := by
    omega
  simp only [assocTemporalTerm, e]

/-- The word-overlap term is symmetric. -/
lemma assocContentTerm_comm (m1 m2 : MemoryNode) :
    assocContentTerm m1 m2 = assocContentTerm m2 m1 := by
  simp only [assocContentTerm]
  by_cases h1 : (wordSet m1.content).Nonempty
  · by_cases h2 : (wordSet m2.content).Nonempty
    · rw [if_pos ⟨h1, h2⟩, if_pos ⟨h2, h1⟩, Finset.inter_comm, Nat.max_comm]
    · rw [if_neg (fun hc => h2 hc.2), if_neg (fun hc => h2 hc.1)]
  · rw [if_neg (fun hc => h1 hc.1), if_neg (fun hc => h1 hc.2)]

/-- `_calculate_association_strength` is symmetric in its two arguments. -/
lemma calculate_association_strength_comm (m1 m2 : MemoryNode) :
    calculate_association_strength m1 m2 = calculate_association_strength m2 m1 := by
  unfold calculate_association_strength
  rw [assocTagTerm_comm, assocEmotionTerm_comm, assocTemporalTerm_comm, assocContentTerm_comm]

/-- Characterization of the pairs present after `_create_memory_associations`:
the old pairs, plus both directions against every scanned node (other than the
new node itself) whose strength with the new node exceeds `0.3`. -/
lemma mem_create_memory_associations (n : MemoryNode) (p : String × String) :
    ∀ (db : List MemoryNode) (g : List (String × String)),
      p ∈ create_memory_associations db g n ↔
        p ∈ g ∨ ∃ ex ∈ db, ex.id ≠ n.id ∧
          calculate_association_strength n ex > 3/10 ∧
          (p = (n.id, ex.id) ∨ p = (ex.id, n.id)) := by
  intro db
  induction db with
  | nil => intro g; simp [create_memory_associations]
  | cons ex rest ih =>
    intro g
    unfold create_memory_associations at ih ⊢
    simp only [List.foldl_cons]
    by_cases h1 : ex.id = n.id
    · rw [if_pos h1, ih g]
      constructor
      · rintro (hg | ⟨e, he, hne, hs, hp⟩)
        · exact Or.inl hg
        · exact Or.inr ⟨e, List.mem_cons_of_mem _ he, hne, hs, hp⟩
      · rintro (hg | ⟨e, he, hne, hs, hp⟩)
        · exact Or.inl hg
        · rcases List.mem_cons.mp he with rfl | he2
          · exact absurd h1 hne
          · exact Or.inr ⟨e, he2, hne, hs, hp⟩
    · rw [if_neg h1]
      by_cases h2 : calculate_association_strength n ex > 3/10
      · rw [if_pos h2, ih]
        constructor
        · rintro (hg | ⟨e, he, hne, hs, hp⟩)
          · rcases List.mem_append.mp hg with hg2 | hp2
            · exact Or.inl hg2
            · refine Or.inr ⟨ex, List.mem_cons_self ex rest, h1, h2, ?_⟩
              simpa using hp2
          · exact Or.inr ⟨e, List.mem_cons_of_mem _ he, hne, hs, hp⟩
        · rintro (hg | ⟨e, he, hne, hs, hp⟩)
          · exact Or.inl (List.mem_append.mpr (Or.inl hg))
          · rcases List.mem_cons.mp he with rfl | he2
            · exact Or.inl (List.mem_append.mpr (Or.inr (by simpa using hp)))
            · exact Or.inr ⟨e, he2, hne, hs, hp⟩
      · rw [if_neg h2, ih]
        constructor
        · rintro (hg | ⟨e, he, hne, hs, hp⟩)
          · exact Or.inl hg
          · exact Or.inr ⟨e, List.mem_cons_of_mem _ he, hne, hs, hp⟩
        · rintro (hg | ⟨e, he, hne, hs, hp⟩)
          · exact Or.inl hg
          · rcases List.mem_cons.mp he with rfl | he2
            · exact absurd hs h2
            · exact Or.inr ⟨e, he2, hne, hs, hp⟩

/-- Inserting a node whose id is not yet present appends it. -/
lemma dbInsert_of_fresh (db : List MemoryNode) (node : MemoryNode)
    (h : ∀ m ∈ db, m.id ≠ node.id) : dbInsert db node = db ++ [node] := by
  unfold dbInsert
  rw [if_neg]
  intro hc
  rcases List.any_eq_true.mp hc with ⟨m, hm, he⟩
  exact h m hm (by simpa using he)

/-- One store call with a fresh id preserves graph symmetry and edge strength,
and appends exactly the constructed node. -/
lemma store_preserves_invariants (st : MemoryStore) (inp : StoreInput)
    (hfresh : ∀ m ∈ st.memory_database, m.id ≠ inp.memory_id)
    (hsym : GraphSymm st) (hstrong : EdgesStrong st) :
    GraphSymm (store_multimodal_memory st inp) ∧
      EdgesStrong (store_multimodal_memory st inp) ∧
      (store_multimodal_memory st inp).memory_database =
        st.memory_database ++ [mkStoredNode inp] := by
  have hid : (mkStoredNode inp).id = inp.memory_id := rfl
  have hdb : dbInsert st.memory_database (mkStoredNode inp) =
      st.memory_database ++ [mkStoredNode inp] :=
    dbInsert_of_fresh _ _ (fun m hm => by rw [hid]; exact hfresh m hm)
  have hdbeq : (store_multimodal_memory st inp).memory_database =
      dbInsert st.memory_database (mkStoredNode inp) := rfl
  have hgeq : (store_multimodal_memory st inp).association_graph =
      create_memory_associations (dbInsert st.memory_database (mkStoredNode inp))
        st.association_graph (mkStoredNode inp) := rfl
  refine ⟨?_, ?_, hdbeq.trans hdb⟩
  · intro a b hab
    rw [hgeq, mem_create_memory_associations] at hab ⊢
    rcases hab with hg | ⟨e, he, hne, hs, hp⟩
    · exact Or.inl (hsym a b hg)
    · rw [Prod.mk.injEq] at hp
      rcases hp with ⟨rfl, rfl⟩ | ⟨rfl, rfl⟩
      · exact Or.inr ⟨e, he, hne, hs, Or.inr rfl⟩
      · exact Or.inr ⟨e, he, hne, hs, Or.inl rfl⟩
  · intro a b hab
    rw [hgeq, mem_create_memory_associations] at hab
    rcases hab with hg | ⟨e, he, hne, hs, hp⟩
    · obtain ⟨ma, hma, mb, hmb, h1, h2, h3⟩ := hstrong a b hg
      refine ⟨ma, ?_, mb, ?_, h1, h2, h3⟩
      · rw [hdbeq.trans hdb]; exact List.mem_append_left _ hma
      · rw [hdbeq.trans hdb]; exact List.mem_append_left _ hmb
    · have hedb : e ∈ (store_multimodal_memory st inp).memory_database := by
        rw [hdbeq]; exact he
      have hndb : mkStoredNode inp ∈ (store_multimodal_memory st inp).memory_database := by
        rw [hdbeq.trans hdb]
        exact List.mem_append_right _ (List.mem_singleton_self _)
      rw [Prod.mk.injEq] at hp
      rcases hp with ⟨rfl, rfl⟩ | ⟨rfl, rfl⟩
      · exact ⟨mkStoredNode inp, hndb, e, hedb, rfl, rfl, hs⟩
      · refine ⟨e, hedb, mkStoredNode inp, hndb, rfl, rfl, ?_⟩
        rw [calculate_association_strength_comm]
        exact hs

/-- A sequence of store calls with pairwise-distinct fresh ids preserves the
two graph invariants. -/
lemma runStores_invariants : ∀ (inps : List StoreInput) (st : MemoryStore),
    GraphSymm st → EdgesStrong st →
    (∀ m ∈ st.memory_database, ∀ inp ∈ inps, m.id ≠ inp.memory_id) →
    (inps.map (fun i => i.memory_id)).Nodup →
    GraphSymm (inps.foldl store_multimodal_memory st) ∧
      EdgesStrong (inps.foldl store_multimodal_memory st) := by
  intro inps
  induction inps with
  | nil => intro st h1 h2 _ _; exact ⟨h1, h2⟩
  | cons inp rest ih =>
    intro st h1 h2 hdisj hnodup
    simp only [List.map_cons, List.nodup_cons] at hnodup
    simp only [List.foldl_cons]
    have hfresh : ∀ m ∈ st.memory_database, m.id ≠ inp.memory_id := fun m hm =>
      hdisj m hm inp (List.mem_cons_self _ _)
    obtain ⟨hs1, hs2, hdb⟩ := store_preserves_invariants st inp hfresh h1 h2
    apply ih _ hs1 hs2
    · intro m hm i hi
      rw [hdb] at hm
      rcases List.mem_append.mp hm with hm2 | hm2
      · exact hdisj m hm2 i (List.mem_cons_of_mem _ hi)
      · have hmeq : m = mkStoredNode inp := by simpa using hm2
        subst hmeq
        intro he
        exact hnodup.1 (by
          rw [show inp.memory_id = i.memory_id from he]
          exact List.mem_map_of_mem _ hi)
    · exact hnodup.2

/-- Claim C6: after any sequence of store operations (with the distinct ids
the hash-based id generator produces) the association graph is symmetric --
whenever A is linked to B, B is linked to A, and the computed strength is the
same in both directions -- and every link joins two stored nodes whose
computed association strength exceeds `0.3`. -/
theorem association_graph_symmetric_and_strong (inps : List StoreInput)
    (hnodup : (inps.map (fun i => i.memory_id)).Nodup) :
    (∀ a b, (a, b) ∈ (runStores inps).association_graph →
      (b, a) ∈ (runStores inps).association_graph) ∧
    (∀ a b, (a, b) ∈ (runStores inps).association_graph →
      ∃ ma ∈ (runStores inps).memory_database,
        ∃ mb ∈ (runStores inps).memory_database,
          ma.id = a ∧ mb.id = b ∧
          calculate_association_strength ma mb > 3/10 ∧
          calculate_association_strength mb ma = calculate_association_strength ma mb) := by
  have h := runStores_invariants inps emptyMemoryStore
    (by intro a b hab; simp [emptyMemoryStore] at hab)
    (by intro a b hab; simp [emptyMemoryStore] at hab)
    (by intro m hm; simp [emptyMemoryStore] at hm)
    hnodup
  refine ⟨h.1, ?_⟩
  intro a b hab
  obtain ⟨ma, hma, mb, hmb, h1, h2, h3⟩ := h.2 a b hab
  exact ⟨ma, hma, mb, hmb, h1, h2, h3, calculate_association_strength_comm mb ma⟩


/-- Witness for C6: the two concrete store calls of `demoStoreInputs` have
distinct ids, and the conclusion holds for the resulting store. -/
theorem association_graph_symmetric_and_strong_witness :
    (demoStoreInputs.map (fun i => i.memory_id)).Nodup ∧
    ((∀ a b, (a, b) ∈ (runStores demoStoreInputs).association_graph →
        (b, a) ∈ (runStores demoStoreInputs).association_graph) ∧
      (∀ a b, (a, b) ∈ (runStores demoStoreInputs).association_graph →
        ∃ ma ∈ (runStores demoStoreInputs).memory_database,
          ∃ mb ∈ (runStores demoStoreInputs).memory_database,
            ma.id = a ∧ mb.id = b ∧
            calculate_association_strength ma mb > 3/10 ∧
            calculate_association_strength mb ma = calculate_association_strength ma mb)) :=
  ⟨by decide, association_graph_symmetric_and_strong demoStoreInputs (by decide)⟩
